import Mathlib

/-!
# Verification of the JS_AI_CAR_DRIVE geometry and perception core

This file embeds the geometry kernel (`linearInterpolation`, `getIntersection`,
`polysIntersect`), the perception sensor (`castRays`, `getReading`, sensor update)
and the vehicle kinematics (`Car.move`, `Car.update`, damage assessment) of the
repository as Lean functions over an arbitrary linearly ordered field, and proves
the specified properties about them.  Trigonometric and hypotenuse functions are
passed in as an explicit `Trig` record so that every definition stays executable;
the theorems hold for every choice of those functions, and concrete instances
evaluate them on rational inputs.
-/

set_option linter.unusedVariables false

/-- A 2D point `{x, y}`, the basic value type of the geometry kernel. -/
structure Point (α : Type) where
  x : α
  y : α
deriving DecidableEq, Repr

/-- An intersection record `{x, y, offset}`: the point of intersection together
with the parametric `offset` (the `t` value) along the first segment. -/
structure Touch (α : Type) where
  x : α
  y : α
  offset : α
deriving DecidableEq, Repr

/-- `linearInterpolation A B t = A + (B - A) * t`, as in both copies of the
source helper. -/
def linearInterpolation {α : Type} [LinearOrderedField α] (A B t : α) : α :=
  A + (B - A) * t

/-- `getIntersection(A, B, C, D)` as defined in `src/unnamed/part_000`
(lines 33–52): the determinant-based segment intersection.  Both coordinates of
the returned point are interpolated along their own axes. -/
def getIntersection {α : Type} [LinearOrderedField α] (A B C D : Point α) :
    Option (Touch α) :=
  let tTop := (D.x - C.x) * (A.y - C.y) - (D.y - C.y) * (A.x - C.x)
  let uTop := (C.y - A.y) * (A.x - B.x) - (C.x - A.x) * (A.y - B.y)
  let bottom := (D.y - C.y) * (B.x - A.x) - (D.x - C.x) * (B.y - A.y)
  if bottom ≠ 0 then
    let t := tTop / bottom
    let u := uTop / bottom
    if 0 ≤ t ∧ t ≤ 1 ∧ 0 ≤ u ∧ u ≤ 1 then
      some { x := linearInterpolation A.x B.x t
             y := linearInterpolation A.y B.y t
             offset := t }
    else none
  else none

/-- `getIntersection` as defined in `src/utils.js` (lines 23–42).  This copy
computes the returned `y` as `linearInterpolation(A.x, B.x, t)`, i.e. it
interpolates the y coordinate along the x pair. -/
def getIntersectionUtils {α : Type} [LinearOrderedField α] (A B C D : Point α) :
    Option (Touch α) :=
  let tTop := (D.x - C.x) * (A.y - C.y) - (D.y - C.y) * (A.x - C.x)
  let uTop := (C.y - A.y) * (A.x - B.x) - (C.x - A.x) * (A.y - B.y)
  let bottom := (D.y - C.y) * (B.x - A.x) - (D.x - C.x) * (B.y - A.y)
  if bottom ≠ 0 then
    let t := tTop / bottom
    let u := uTop / bottom
    if 0 ≤ t ∧ t ≤ 1 ∧ 0 ≤ u ∧ u ≤ 1 then
      some { x := linearInterpolation A.x B.x t
             y := linearInterpolation A.x B.x t
             offset := t }
    else none
  else none

/-- The origin point, used as the out-of-range default for list indexing. -/
def pt0 {α : Type} [LinearOrderedField α] : Point α := ⟨0, 0⟩

/-- `polysIntersect(poly1, poly2)` from `src/unnamed/part_000` (lines 60–75):
for every index pair, test the cyclic edge `poly1[i] → poly1[(i+1) % len]`
against the cyclic edge of `poly2`; true on any hit. -/
def polysIntersect {α : Type} [LinearOrderedField α]
    (poly1 poly2 : List (Point α)) : Bool :=
  (List.range poly1.length).any fun i =>
    (List.range poly2.length).any fun j =>
      (getIntersection
        (poly1.getD i pt0) (poly1.getD ((i + 1) % poly1.length) pt0)
        (poly2.getD j pt0) (poly2.getD ((j + 1) % poly2.length) pt0)).isSome

/-- A segment, stored as its two endpoints; rays and road borders both have
this shape (`[start, end]` arrays in the source). -/
def Seg (α : Type) : Type := Point α × Point α

/-- The degenerate segment at the origin, used as an indexing default. -/
def seg0 {α : Type} [LinearOrderedField α] : Seg α := (pt0, pt0)

/-- The single `getIntersection(ray[0], ray[1], border[0], border[1])` call of
`Sensor.#getReading`. -/
def rayTouch {α : Type} [LinearOrderedField α] (ray b : Seg α) :
    Option (Touch α) :=
  getIntersection ray.1 ray.2 b.1 b.2

/-- `Sensor.#getReading(ray, roadBorders)` from `src/sensor.js` (lines 71–89):
collect the intersections of the ray with every border, and if any exist return
the first one whose offset equals the minimum of all the offsets. -/
def getReading {α : Type} [LinearOrderedField α] (ray : Seg α)
    (roadBorders : List (Seg α)) : Option (Touch α) :=
  let touches := roadBorders.filterMap fun b => rayTouch ray b
  match touches with
  | [] => none
  | t :: ts =>
    let minOffset := (ts.map Touch.offset).foldl min t.offset
    (t :: ts).find? fun e => decide (e.offset = minOffset)

/-- `Sensor.#castRays` from `src/sensor.js` (lines 96–112): one ray per index
`i < rayCount`, at angle `lerp(raySpread/2, -raySpread/2, i/(rayCount-1))`
(factor `0.5` when `rayCount == 1`) plus the car's angle, from the car position
to the position displaced by `rayLength` along `(-sin, -cos)` of that angle. -/
def castRays {α : Type} [LinearOrderedField α] (sinF cosF : α → α)
    (rayCount : Nat) (rayLength raySpread carX carY carAngle : α) :
    List (Seg α) :=
  (List.range rayCount).map fun (i : Nat) =>
    let rayAngle := linearInterpolation (raySpread / 2) (-(raySpread / 2))
        (if rayCount = 1 then 1/2 else (i : α) / ((rayCount : α) - 1))
      + carAngle
    (⟨carX, carY⟩,
     ⟨carX - sinF rayAngle * rayLength, carY - cosF rayAngle * rayLength⟩)

/-- The four control booleans sampled each tick. -/
structure Controls where
  forward : Bool
  reverse : Bool
  left : Bool
  right : Bool
deriving DecidableEq, Repr

/-- The all-false control state (no key held). -/
def ctrlNone : Controls := ⟨false, false, false, false⟩

/-- The transcendental helpers (`Math.sin`, `Math.cos`, `Math.atan2`,
`Math.hypot`, `Math.PI`) that the source calls, abstracted so the embedding
stays executable; theorems hold for every choice. -/
structure Trig (α : Type) where
  sinF : α → α
  cosF : α → α
  atan2F : α → α → α
  hypotF : α → α → α
  piVal : α

/-- The state of a `Car` together with its owned `Sensor`
(`src/utils.js` lines 189–228 and `src/sensor.js` lines 23–46). -/
structure Car (α : Type) where
  x : α
  y : α
  width : α
  height : α
  speed : α
  acceleration : α
  maxSpeed : α
  friction : α
  angle : α
  damaged : Bool
  polygon : List (Point α)
  rayCount : Nat
  rayLength : α
  raySpread : α
  rays : List (Seg α)
  readings : List (Option (Touch α))

/-- The `Car` constructor (`src/utils.js` lines 189–228) together with the
`Sensor` constructor it invokes: speed 0, acceleration 0.1, maxSpeed 3,
friction 0.05, angle 0, not damaged; 5 rays of length 150 spread over π/2. -/
def Car.init {α : Type} [LinearOrderedField α] (T : Trig α)
    (x y width height : α) : Car α :=
  { x := x, y := y, width := width, height := height
    speed := 0, acceleration := 1/10, maxSpeed := 3, friction := 1/20
    angle := 0, damaged := false, polygon := []
    rayCount := 5, rayLength := 150, raySpread := T.piVal / 2
    rays := [], readings := [] }

/-- `Car.#move` (`src/utils.js` lines 294–333): acceleration from the held
controls, clamping to `[-maxSpeed/2, maxSpeed]`, friction toward zero with a
snap to exactly zero below the friction threshold, steering only at nonzero
speed with the sign flipped in reverse, then displacement along
`(-sin(angle), -cos(angle))` scaled by the speed. -/
def Car.move {α : Type} [LinearOrderedField α] (sinF cosF : α → α)
    (c : Car α) (ctrl : Controls) : Car α :=
  let s0 := if ctrl.forward then c.speed + c.acceleration else c.speed
  let s1 := if ctrl.reverse then s0 - c.acceleration else s0
  let s2 := if c.maxSpeed < s1 then c.maxSpeed else s1
  let s3 := if s2 < -(c.maxSpeed / 2) then -(c.maxSpeed / 2) else s2
  let s4 := if s3 < 0 then s3 + c.friction else s3
  let s5 := if 0 < s4 then s4 - c.friction else s4
  let s6 := if |s5| < c.friction then 0 else s5
  let a1 :=
    if s6 ≠ 0 then
      let flip : α := if 0 < s6 then 1 else -1
      let aL := if ctrl.left then c.angle + 3/100 * flip else c.angle
      if ctrl.right then aL - 3/100 * flip else aL
    else c.angle
  { c with speed := s6, angle := a1
           x := c.x - sinF a1 * s6
           y := c.y - cosF a1 * s6 }

/-- `Car.#createPolygon` (`src/utils.js` lines 265–287): the four rectangle
corners at `radius = hypot(width, height)/2` and `alpha = atan2(width, height)`
around the car's position. -/
def Car.createPolygon {α : Type} [LinearOrderedField α] (T : Trig α)
    (c : Car α) : List (Point α) :=
  let rad := T.hypotF c.width c.height / 2
  let alpha := T.atan2F c.width c.height
  [ ⟨c.x - T.sinF (c.angle - alpha) * rad, c.y - T.cosF (c.angle - alpha) * rad⟩
  , ⟨c.x - T.sinF (c.angle + alpha) * rad, c.y - T.cosF (c.angle + alpha) * rad⟩
  , ⟨c.x - T.sinF (T.piVal + c.angle - alpha) * rad
    , c.y - T.cosF (T.piVal + c.angle - alpha) * rad⟩
  , ⟨c.x - T.sinF (T.piVal + c.angle + alpha) * rad
    , c.y - T.cosF (T.piVal + c.angle + alpha) * rad⟩ ]

/-- `Car.#assessDamage` (`src/utils.js` lines 250–257): the car is damaged iff
its polygon intersects some road border, each border being passed to
`polysIntersect` as its two-point list. -/
def Car.assessDamage {α : Type} [LinearOrderedField α] (c : Car α)
    (roadBorders : List (Seg α)) : Bool :=
  roadBorders.any fun b => polysIntersect c.polygon [b.1, b.2]

/-- `Sensor.update` (`src/sensor.js` lines 52–60): recast the rays from the
car's current pose and recompute one reading per ray. -/
def Car.sensorUpdate {α : Type} [LinearOrderedField α] (T : Trig α)
    (c : Car α) (roadBorders : List (Seg α)) : Car α :=
  let rays := castRays T.sinF T.cosF c.rayCount c.rayLength c.raySpread
      c.x c.y c.angle
  { c with rays := rays
           readings := rays.map fun r => getReading r roadBorders }

/-- `Car.update` (`src/utils.js` lines 234–242): when not damaged, move,
rebuild the polygon and assess damage; in every case run the sensor update
against the same borders. -/
def Car.update {α : Type} [LinearOrderedField α] (T : Trig α) (c : Car α)
    (ctrl : Controls) (roadBorders : List (Seg α)) : Car α :=
  let c1 :=
    if c.damaged then c
    else
      let cm := Car.move T.sinF T.cosF c ctrl
      let c2 := { cm with polygon := Car.createPolygon T cm }
      { c2 with damaged := Car.assessDamage c2 roadBorders }
  Car.sensorUpdate T c1 roadBorders

/-- Dummy transcendentals over ℚ used by the concrete witnesses: `sin = 0` and
`cos = -1`, so a ray of length `L` from `(x, y)` ends at `(x, y + L)`. -/
def trigQ : Trig ℚ :=
  { sinF := fun _ => 0, cosF := fun _ => -1
    atan2F := fun _ _ => 0, hypotF := fun _ _ => 0, piVal := 0 }

/-- No border at all intersects the given ray. -/
def NoHit {α : Type} [LinearOrderedField α] (ray : Seg α)
    (roadBorders : List (Seg α)) : Prop :=
  ∀ b ∈ roadBorders, rayTouch ray b = none

/-- `r` is an intersection of the ray with one of the borders, and its offset
is minimal among all intersections of that ray with the borders. -/
def MinimalHit {α : Type} [LinearOrderedField α] (ray : Seg α)
    (roadBorders : List (Seg α)) (r : Touch α) : Prop :=
  (∃ b ∈ roadBorders, rayTouch ray b = some r) ∧
  ∀ b ∈ roadBorders, ∀ r', rayTouch ray b = some r' → r.offset ≤ r'.offset

/-! ## Projection helper lemmas -/

@[simp]
theorem Car.move_width {α : Type} [LinearOrderedField α] (sinF cosF : α → α)
    (c : Car α) (ctrl : Controls) : (Car.move sinF cosF c ctrl).width = c.width := rfl

@[simp]
theorem Car.move_height {α : Type} [LinearOrderedField α] (sinF cosF : α → α)
    (c : Car α) (ctrl : Controls) : (Car.move sinF cosF c ctrl).height = c.height := rfl

@[simp]
theorem Car.move_acceleration {α : Type} [LinearOrderedField α] (sinF cosF : α → α)
    (c : Car α) (ctrl : Controls) :
    (Car.move sinF cosF c ctrl).acceleration = c.acceleration := rfl

@[simp]
theorem Car.move_maxSpeed {α : Type} [LinearOrderedField α] (sinF cosF : α → α)
    (c : Car α) (ctrl : Controls) : (Car.move sinF cosF c ctrl).maxSpeed = c.maxSpeed := rfl

@[simp]
theorem Car.move_friction {α : Type} [LinearOrderedField α] (sinF cosF : α → α)
    (c : Car α) (ctrl : Controls) : (Car.move sinF cosF c ctrl).friction = c.friction := rfl

@[simp]
theorem Car.move_damaged {α : Type} [LinearOrderedField α] (sinF cosF : α → α)
    (c : Car α) (ctrl : Controls) : (Car.move sinF cosF c ctrl).damaged = c.damaged := rfl

@[simp]
theorem Car.move_rayCount {α : Type} [LinearOrderedField α] (sinF cosF : α → α)
    (c : Car α) (ctrl : Controls) : (Car.move sinF cosF c ctrl).rayCount = c.rayCount := rfl

@[simp]
theorem castRays_length {α : Type} [LinearOrderedField α] (sinF cosF : α → α)
    (rayCount : Nat) (rayLength raySpread carX carY carAngle : α) :
    (castRays sinF cosF rayCount rayLength raySpread carX carY carAngle).length
      = rayCount := by
  unfold castRays
  rw [List.length_map, List.length_range]

/-- The zero-length edge of a one-point polygon has `bottom = 0`, hence no
intersection with anything. -/
theorem getIntersection_self_left {α : Type} [LinearOrderedField α]
    (A C D : Point α) : getIntersection A A C D = none := by
  simp [getIntersection]

/-- `polysIntersect` is the existence of an intersecting cyclic-edge pair. -/
theorem polysIntersect_eq_true_iff {α : Type} [LinearOrderedField α]
    (p1 p2 : List (Point α)) :
    polysIntersect p1 p2 = true ↔
      ∃ i < p1.length, ∃ j < p2.length,
        (getIntersection (p1.getD i pt0) (p1.getD ((i + 1) % p1.length) pt0)
          (p2.getD j pt0) (p2.getD ((j + 1) % p2.length) pt0)).isSome := by
  simp [polysIntersect, List.any_eq_true, List.mem_range]

/-! ## The claims -/

/-- C4: whenever the determinant
`bottom = (D.y-C.y)(B.x-A.x) - (D.x-C.x)(B.y-A.y)` is zero — in particular for
parallel or collinear segments, even overlapping ones — `getIntersection`
returns `none`, as the ordinary no-value result. -/
theorem C4_parallel_returns_none {α : Type} [LinearOrderedField α]
    (A B C D : Point α)
    (h : (D.y - C.y) * (B.x - A.x) - (D.x - C.x) * (B.y - A.y) = 0) :
    getIntersection A B C D = none := by
  simp [getIntersection, h]

/-- Witness for C4: two overlapping collinear horizontal segments sharing the
same `y` have `bottom = 0` and `getIntersection` returns `none`. -/
theorem C4_parallel_returns_none_witness :
    (((⟨3,0⟩ : Point ℚ).y - (⟨1,0⟩ : Point ℚ).y) * ((⟨2,0⟩ : Point ℚ).x - (⟨0,0⟩ : Point ℚ).x)
      - ((⟨3,0⟩ : Point ℚ).x - (⟨1,0⟩ : Point ℚ).x) * ((⟨2,0⟩ : Point ℚ).y - (⟨0,0⟩ : Point ℚ).y) = 0)
    ∧ getIntersection (⟨0,0⟩ : Point ℚ) ⟨2,0⟩ ⟨1,0⟩ ⟨3,0⟩ = none :=
  ⟨by norm_num, C4_parallel_returns_none ⟨0,0⟩ ⟨2,0⟩ ⟨1,0⟩ ⟨3,0⟩ (by norm_num)⟩

/-- C1: the `src/utils.js` copy of `getIntersection` interpolates the returned
`y` along the x pair.  At `A=(0,0)`, `B=(0,2)`, `C=(-1,1)`, `D=(1,1)` (a true
crossing at `t = 1/2`) it returns the point `(0, 0)`, whereas the claimed value
of the y coordinate is `lerp(A.y, B.y, 1/2) = 1` — which is exactly what the
corrected `src/unnamed/part_000` copy returns. -/
theorem C1_wrong_axis_evaluation :
    getIntersectionUtils (⟨0,0⟩ : Point ℚ) ⟨0,2⟩ ⟨-1,1⟩ ⟨1,1⟩ = some ⟨0, 0, 1/2⟩ ∧
    getIntersection (⟨0,0⟩ : Point ℚ) ⟨0,2⟩ ⟨-1,1⟩ ⟨1,1⟩ = some ⟨0, 1, 1/2⟩ ∧
    linearInterpolation ((⟨0,0⟩ : Point ℚ)).y ((⟨0,2⟩ : Point ℚ)).y (1/2) = 1 := by
  refine ⟨?_, ?_, ?_⟩ <;>
    norm_num [getIntersectionUtils, getIntersection, linearInterpolation]

/-- C6: `polysIntersect P1 P2` is true iff some cyclic edge of `P1` intersects
some cyclic edge of `P2`; it is true for two overlapping unit squares and false
for two unit squares separated by a gap of ten units. -/
theorem C6_polysIntersect_iff :
    (∀ (α : Type) [LinearOrderedField α] (p1 p2 : List (Point α)),
      polysIntersect p1 p2 = true ↔
        ∃ i < p1.length, ∃ j < p2.length,
          (getIntersection (p1.getD i pt0) (p1.getD ((i + 1) % p1.length) pt0)
            (p2.getD j pt0) (p2.getD ((j + 1) % p2.length) pt0)).isSome) ∧
    polysIntersect ([⟨0,0⟩, ⟨1,0⟩, ⟨1,1⟩, ⟨0,1⟩] : List (Point ℚ))
      [⟨1/2,1/2⟩, ⟨3/2,1/2⟩, ⟨3/2,3/2⟩, ⟨1/2,3/2⟩] = true ∧
    polysIntersect ([⟨0,0⟩, ⟨1,0⟩, ⟨1,1⟩, ⟨0,1⟩] : List (Point ℚ))
      [⟨10,0⟩, ⟨11,0⟩, ⟨11,1⟩, ⟨10,1⟩] = false := by
  refine ⟨?_, ?_, ?_⟩
  · intro α _ p1 p2
    exact polysIntersect_eq_true_iff p1 p2
  · norm_num [polysIntersect, getIntersection, linearInterpolation,
      List.range_succ]
  · norm_num [polysIntersect, getIntersection, linearInterpolation,
      List.range_succ]

/-- C10: `polysIntersect` handles sub-3-point inputs without any error: an
empty vertex list intersects nothing; a one-point list intersects nothing
because its only edge is zero-length and has `bottom = 0`; a two-point list
`[A, B]` is treated as the segment `AB` traversed in both directions (edges
`A→B` and `B→A`); and the collision test consumes each two-point road border
in exactly this form. -/
theorem C10_sub3_point_inputs :
    (∀ (α : Type) [LinearOrderedField α] (p : List (Point α)),
        polysIntersect [] p = false) ∧
    (∀ (α : Type) [LinearOrderedField α] (A C D : Point α),
        getIntersection A A C D = none) ∧
    (∀ (α : Type) [LinearOrderedField α] (A : Point α) (p : List (Point α)),
        polysIntersect [A] p = false) ∧
    (∀ (α : Type) [LinearOrderedField α] (A B : Point α) (p : List (Point α)),
        polysIntersect [A, B] p = true ↔
          ∃ j < p.length,
            ((getIntersection A B (p.getD j pt0)
                (p.getD ((j + 1) % p.length) pt0)).isSome ∨
             (getIntersection B A (p.getD j pt0)
                (p.getD ((j + 1) % p.length) pt0)).isSome)) ∧
    (∀ (α : Type) [LinearOrderedField α] (c : Car α) (roadBorders : List (Seg α)),
        Car.assessDamage c roadBorders = true ↔
          ∃ b ∈ roadBorders, polysIntersect c.polygon [b.1, b.2] = true) := by
  refine ⟨?_, ?_, ?_, ?_, ?_⟩
  · intro α _ p
    simp [polysIntersect]
  · intro α _ A C D
    exact getIntersection_self_left A C D
  · intro α _ A p
    simp [polysIntersect, List.range_succ, getIntersection_self_left]
  · intro α _ A B p
    have e0 : ([A, B] : List (Point α)).getD 0 pt0 = A := rfl
    have e1 : ([A, B] : List (Point α)).getD 1 pt0 = B := rfl
    have L : ([A, B] : List (Point α)).length = 2 := rfl
    rw [polysIntersect_eq_true_iff]
    constructor
    · rintro ⟨i, hi, j, hj, h⟩
      rw [L] at hi
      have hi2 : i = 0 ∨ i = 1 := by omega
      rcases hi2 with rfl | rfl
      · exact ⟨j, hj, Or.inl (by simpa [e0, e1, L] using h)⟩
      · exact ⟨j, hj, Or.inr (by simpa [e0, e1, L] using h)⟩
    · rintro ⟨j, hj, h | h⟩
      · exact ⟨0, by norm_num [L], j, hj, by simpa [e0, e1, L] using h⟩
      · exact ⟨1, by norm_num [L], j, hj, by simpa [e0, e1, L] using h⟩
  · intro α _ c roadBorders
    simp [Car.assessDamage]

/-- C9 counterexample: there is no construction-time validation and no
invalid-argument signal.  A polygon with fewer than 3 points flows straight
into `polysIntersect` and produces an ordinary geometric answer (here `true`
against a square crossing it), and the constructor accepts degenerate
zero-by-zero dimensions, returning a normal undamaged state. -/
theorem C9_no_validation_counterexample :
    polysIntersect ([⟨0,0⟩, ⟨0,1⟩] : List (Point ℚ))
      [⟨-1,1/2⟩, ⟨1,1/2⟩, ⟨1,2⟩, ⟨-1,2⟩] = true ∧
    (Car.init trigQ 0 0 0 0).damaged = false ∧
    (Car.init trigQ 0 0 0 0).speed = 0 := by
  refine ⟨?_, rfl, rfl⟩
  norm_num [polysIntersect, getIntersection, linearInterpolation,
    List.range_succ]

/-- C9 amended: the implementation performs no input validation at
construction time.  The constructor accepts arbitrary (including degenerate)
dimensions without any failure signal and records them verbatim, and the
per-tick update then runs normally on the unvalidated state, producing its
usual readings. -/
theorem C9_amended_no_validation :
    ∀ (α : Type) [LinearOrderedField α] (T : Trig α) (x y w h : α)
      (ctrl : Controls) (roadBorders : List (Seg α)),
      (Car.init T x y w h).damaged = false ∧
      (Car.init T x y w h).speed = 0 ∧
      (Car.init T x y w h).width = w ∧
      (Car.init T x y w h).height = h ∧
      (Car.update T (Car.init T x y w h) ctrl roadBorders).readings.length
        = (Car.init T x y w h).rayCount := by
  intro α _ T x y w h ctrl roadBorders
  refine ⟨rfl, rfl, rfl, rfl, ?_⟩
  simp [Car.update, Car.sensorUpdate, Car.init]

/-- C2: once `damaged` is true, `update` leaves the position, the heading
angle, the speed and the footprint polygon unchanged and `damaged` stays true
(there is no transition back), while the sensor rays and readings are still
recomputed from the frozen pose against the supplied borders. -/
theorem C2_damage_freezes_kinematics {α : Type} [LinearOrderedField α]
    (T : Trig α) (c : Car α) (ctrl : Controls) (roadBorders : List (Seg α))
    (h : c.damaged = true) :
    (Car.update T c ctrl roadBorders).x = c.x ∧
    (Car.update T c ctrl roadBorders).y = c.y ∧
    (Car.update T c ctrl roadBorders).angle = c.angle ∧
    (Car.update T c ctrl roadBorders).speed = c.speed ∧
    (Car.update T c ctrl roadBorders).polygon = c.polygon ∧
    (Car.update T c ctrl roadBorders).damaged = true ∧
    (Car.update T c ctrl roadBorders).rays
      = castRays T.sinF T.cosF c.rayCount c.rayLength c.raySpread c.x c.y c.angle ∧
    (Car.update T c ctrl roadBorders).readings
      = (castRays T.sinF T.cosF c.rayCount c.rayLength c.raySpread c.x c.y c.angle).map
          (fun r => getReading r roadBorders) := by
  simp [Car.update, Car.sensorUpdate, h]

/-- A concrete damaged car used to witness the freeze property. -/
def dmgCar : Car ℚ := { Car.init trigQ 0 0 4 8 with damaged := true }

/-- Witness for C2: the freeze property at a concrete damaged state. -/
theorem C2_damage_freezes_kinematics_witness :
    dmgCar.damaged = true ∧
    ((Car.update trigQ dmgCar ctrlNone []).x = dmgCar.x ∧
     (Car.update trigQ dmgCar ctrlNone []).y = dmgCar.y ∧
     (Car.update trigQ dmgCar ctrlNone []).angle = dmgCar.angle ∧
     (Car.update trigQ dmgCar ctrlNone []).speed = dmgCar.speed ∧
     (Car.update trigQ dmgCar ctrlNone []).polygon = dmgCar.polygon ∧
     (Car.update trigQ dmgCar ctrlNone []).damaged = true ∧
     (Car.update trigQ dmgCar ctrlNone []).rays
       = castRays trigQ.sinF trigQ.cosF dmgCar.rayCount dmgCar.rayLength
           dmgCar.raySpread dmgCar.x dmgCar.y dmgCar.angle ∧
     (Car.update trigQ dmgCar ctrlNone []).readings
       = (castRays trigQ.sinF trigQ.cosF dmgCar.rayCount dmgCar.rayLength
           dmgCar.raySpread dmgCar.x dmgCar.y dmgCar.angle).map
           (fun r => getReading r [])) :=
  ⟨rfl, C2_damage_freezes_kinematics trigQ dmgCar ctrlNone [] rfl⟩

/-! ## Minimum-offset machinery for the sensor -/

/-- Folding `min` never exceeds the initial accumulator. -/
theorem foldl_min_le_init {β : Type} [LinearOrder β] (l : List β) (a : β) :
    List.foldl min a l ≤ a := by
  induction l generalizing a with
  | nil => exact le_refl a
  | cons x xs ih => exact le_trans (ih (min a x)) (min_le_left a x)

/-- Folding `min` never exceeds any list element. -/
theorem foldl_min_le_mem {β : Type} [LinearOrder β] (l : List β) (a x : β)
    (hx : x ∈ l) : List.foldl min a l ≤ x := by
  induction l generalizing a with
  | nil => cases hx
  | cons y ys ih =>
    rcases List.mem_cons.mp hx with rfl | h
    · exact le_trans (foldl_min_le_init ys (min a x)) (min_le_right a x)
    · exact ih (min a y) h

/-- The fold of `min` is attained: it is the accumulator or a list element. -/
theorem foldl_min_attained {β : Type} [LinearOrder β] (l : List β) (a : β) :
    List.foldl min a l = a ∨ List.foldl min a l ∈ l := by
  induction l generalizing a with
  | nil => exact Or.inl rfl
  | cons y ys ih =>
    rcases ih (min a y) with h | h
    · rcases min_cases a y with ⟨he, _⟩ | ⟨he, _⟩
      · exact Or.inl (h.trans he)
      · exact Or.inr (by rw [List.foldl_cons, h, he]; exact List.mem_cons_self y ys)
    · exact Or.inr (List.mem_cons_of_mem y h)

/-- `getReading` when the ray misses every border: the touch list is empty. -/
theorem getReading_of_touches_nil {α : Type} [LinearOrderedField α]
    (ray : Seg α) (roadBorders : List (Seg α))
    (h : roadBorders.filterMap (fun b => rayTouch ray b) = []) :
    getReading ray roadBorders = none := by
  unfold getReading
  rw [h]

/-- `getReading` when the touch list is nonempty: the find-by-minimum pass. -/
theorem getReading_of_touches_cons {α : Type} [LinearOrderedField α]
    (ray : Seg α) (roadBorders : List (Seg α)) (t : Touch α) (ts : List (Touch α))
    (h : roadBorders.filterMap (fun b => rayTouch ray b) = t :: ts) :
    getReading ray roadBorders
      = (t :: ts).find?
          (fun e => decide (e.offset = (ts.map Touch.offset).foldl min t.offset)) := by
  unfold getReading
  rw [h]

/-- The reading is `none` exactly when the ray intersects no border. -/
theorem getReading_none_iff {α : Type} [LinearOrderedField α]
    (ray : Seg α) (roadBorders : List (Seg α)) :
    getReading ray roadBorders = none ↔ NoHit ray roadBorders := by
  cases htc : roadBorders.filterMap (fun b => rayTouch ray b) with
  | nil =>
    constructor
    · intro _ b hb
      exact List.filterMap_eq_nil_iff.mp htc b hb
    · intro _
      exact getReading_of_touches_nil ray roadBorders htc
  | cons t ts =>
    rw [getReading_of_touches_cons ray roadBorders t ts htc]
    constructor
    · intro hnone
      exfalso
      have hmem : ∃ e ∈ t :: ts,
          e.offset = (ts.map Touch.offset).foldl min t.offset := by
        rcases foldl_min_attained (ts.map Touch.offset) t.offset with h | h
        · exact ⟨t, List.mem_cons_self t ts, h.symm⟩
        · rcases List.mem_map.mp h with ⟨e, he, hoff⟩
          exact ⟨e, List.mem_cons_of_mem t he, hoff⟩
      rcases hmem with ⟨e, he, hoff⟩
      have hsome : ((t :: ts).find?
          (fun e => decide (e.offset = (ts.map Touch.offset).foldl min t.offset))).isSome := by
        rw [List.find?_isSome]
        exact ⟨e, he, by simpa using hoff⟩
      rw [hnone] at hsome
      cases hsome
    · intro hall
      exfalso
      have ht : t ∈ roadBorders.filterMap (fun b => rayTouch ray b) := by
        rw [htc]
        exact List.mem_cons_self t ts
      rcases List.mem_filterMap.mp ht with ⟨b, hb, hsome⟩
      rw [hall b hb] at hsome
      cases hsome

/-- A `some` reading is an intersection of the ray with one of the borders and
its offset is minimal among all such intersections. -/
theorem getReading_some_minimal {α : Type} [LinearOrderedField α]
    (ray : Seg α) (roadBorders : List (Seg α)) (r : Touch α)
    (h : getReading ray roadBorders = some r) :
    MinimalHit ray roadBorders r := by
  cases htc : roadBorders.filterMap (fun b => rayTouch ray b) with
  | nil =>
    rw [getReading_of_touches_nil ray roadBorders htc] at h
    cases h
  | cons t ts =>
    rw [getReading_of_touches_cons ray roadBorders t ts htc] at h
    have hrmem : r ∈ t :: ts := List.mem_of_find?_eq_some h
    have hrp : r.offset = (ts.map Touch.offset).foldl min t.offset := by
      have := List.find?_some h
      simpa using this
    refine ⟨?_, ?_⟩
    · have hr : r ∈ roadBorders.filterMap (fun b => rayTouch ray b) := by
        rw [htc]
        exact hrmem
      exact List.mem_filterMap.mp hr
    · intro b hb r' hr'
      have hr'mem : r' ∈ t :: ts := by
        rw [← htc]
        exact List.mem_filterMap.mpr ⟨b, hb, hr'⟩
      rw [hrp]
      rcases List.mem_cons.mp hr'mem with rfl | hmem
      · exact foldl_min_le_init _ _
      · exact foldl_min_le_mem _ _ _ (List.mem_map.mpr ⟨r', hmem, rfl⟩)

/-- `getD` through `map`, below the length. -/
theorem getD_map_lt {β γ : Type} (l : List β) (f : β → γ) (i : Nat) (d : γ)
    (dβ : β) (h : i < l.length) : (l.map f).getD i d = f (l.getD i dβ) := by
  rw [List.getD_eq_getElem _ _ (by simpa using h), List.getD_eq_getElem _ _ h,
    List.getElem_map]

/-- C3: the sensor update produces exactly `rayCount` readings, reading `i`
belonging to ray `i`; a reading is `none` when its ray meets no border, and
otherwise it is an intersection of that ray with some border whose offset is
minimal among all intersections of that ray with the borders. -/
theorem C3_sense_minimal_readings {α : Type} [LinearOrderedField α]
    (T : Trig α) (c : Car α) (roadBorders : List (Seg α)) (i : Nat)
    (h : i < c.rayCount) :
    (Car.sensorUpdate T c roadBorders).readings.length = c.rayCount ∧
    (Car.sensorUpdate T c roadBorders).rays.length = c.rayCount ∧
    (Car.sensorUpdate T c roadBorders).readings.getD i none
      = getReading ((Car.sensorUpdate T c roadBorders).rays.getD i seg0)
          roadBorders ∧
    ((Car.sensorUpdate T c roadBorders).readings.getD i none).elim
      (NoHit ((Car.sensorUpdate T c roadBorders).rays.getD i seg0) roadBorders)
      (MinimalHit ((Car.sensorUpdate T c roadBorders).rays.getD i seg0)
        roadBorders) := by
  have hrays : (Car.sensorUpdate T c roadBorders).rays
      = castRays T.sinF T.cosF c.rayCount c.rayLength c.raySpread c.x c.y
          c.angle := rfl
  have hreadings : (Car.sensorUpdate T c roadBorders).readings
      = (Car.sensorUpdate T c roadBorders).rays.map
          (fun r => getReading r roadBorders) := rfl
  have hlenrays : (Car.sensorUpdate T c roadBorders).rays.length = c.rayCount := by
    rw [hrays, castRays_length]
  have hlen : (Car.sensorUpdate T c roadBorders).readings.length = c.rayCount := by
    rw [hreadings, List.length_map, hlenrays]
  have hcorr : (Car.sensorUpdate T c roadBorders).readings.getD i none
      = getReading ((Car.sensorUpdate T c roadBorders).rays.getD i seg0)
          roadBorders := by
    rw [hreadings]
    exact getD_map_lt _ _ i none seg0 (by rw [hlenrays]; exact h)
  refine ⟨hlen, hlenrays, hcorr, ?_⟩
  rw [hcorr]
  cases hr : getReading ((Car.sensorUpdate T c roadBorders).rays.getD i seg0)
      roadBorders with
  | none =>
    exact (getReading_none_iff _ _).mp hr
  | some r =>
    exact getReading_some_minimal _ _ r hr

/-- Two concrete horizontal borders crossing the witness rays at offsets `1/3`
and `2/3`. -/
def bordersQ : List (Seg ℚ) := [(⟨-1, 50⟩, ⟨1, 50⟩), (⟨-1, 100⟩, ⟨1, 100⟩)]

/-- Witness for C3 at the concrete rational car and borders, ray index 0. -/
theorem C3_sense_minimal_readings_witness :
    0 < (Car.init trigQ 0 0 4 8).rayCount ∧
    ((Car.sensorUpdate trigQ (Car.init trigQ 0 0 4 8) bordersQ).readings.length
        = (Car.init trigQ 0 0 4 8).rayCount ∧
     (Car.sensorUpdate trigQ (Car.init trigQ 0 0 4 8) bordersQ).rays.length
        = (Car.init trigQ 0 0 4 8).rayCount ∧
     (Car.sensorUpdate trigQ (Car.init trigQ 0 0 4 8) bordersQ).readings.getD 0 none
        = getReading
            ((Car.sensorUpdate trigQ (Car.init trigQ 0 0 4 8) bordersQ).rays.getD 0 seg0)
            bordersQ ∧
     ((Car.sensorUpdate trigQ (Car.init trigQ 0 0 4 8) bordersQ).readings.getD 0 none).elim
       (NoHit ((Car.sensorUpdate trigQ (Car.init trigQ 0 0 4 8) bordersQ).rays.getD 0 seg0)
         bordersQ)
       (MinimalHit ((Car.sensorUpdate trigQ (Car.init trigQ 0 0 4 8) bordersQ).rays.getD 0 seg0)
         bordersQ)) :=
  ⟨by norm_num [Car.init],
   C3_sense_minimal_readings trigQ (Car.init trigQ 0 0 4 8) bordersQ 0
     (by norm_num [Car.init])⟩

/-- Rays with equal angles are equal, for any trig functions. -/
theorem rayCongr {α : Type} [LinearOrderedField α] (sinF cosF : α → α)
    (x y L A B : α) (h : A = B) :
    ((⟨x, y⟩ : Point α), (⟨x - sinF A * L, y - cosF A * L⟩ : Point α))
      = ((⟨x, y⟩ : Point α), (⟨x - sinF B * L, y - cosF B * L⟩ : Point α)) := by
  rw [h]

/-- C5: for `rayCount ≥ 1`, `castRays` produces exactly `rayCount` rays; ray
`i` starts at the vehicle position and ends displaced by `rayLength` along
`(-sin, -cos)` of the heading plus the interpolation from `+raySpread/2` down
to `-raySpread/2` at factor `i/(rayCount-1)` (factor `1/2` when
`rayCount = 1`).  With the default `rayCount = 5`, `raySpread = π/2` and
heading 0 over ℝ the ray angles are evenly spaced across `[-π/4, π/4]`, and
with `rayCount = 1` there is no division by zero: the single ray sits exactly
on the heading. -/
theorem C5_castRays_fan :
    (∀ (α : Type) [LinearOrderedField α] (sinF cosF : α → α) (n : Nat)
       (len spread x y angle : α), 1 ≤ n →
       (castRays sinF cosF n len spread x y angle).length = n ∧
       ∀ i : Nat, i < n →
         (castRays sinF cosF n len spread x y angle).getD i seg0 =
           (⟨x, y⟩,
            ⟨x - sinF (angle + (spread / 2 - spread *
                (if n = 1 then 1/2 else (i : α) / ((n : α) - 1)))) * len,
             y - cosF (angle + (spread / 2 - spread *
                (if n = 1 then 1/2 else (i : α) / ((n : α) - 1)))) * len⟩)) ∧
    castRays Real.sin Real.cos 5 150 (Real.pi / 2) 0 0 0 =
      [ (⟨0, 0⟩, ⟨0 - Real.sin (Real.pi / 4) * 150, 0 - Real.cos (Real.pi / 4) * 150⟩)
      , (⟨0, 0⟩, ⟨0 - Real.sin (Real.pi / 8) * 150, 0 - Real.cos (Real.pi / 8) * 150⟩)
      , (⟨0, 0⟩, ⟨0 - Real.sin 0 * 150, 0 - Real.cos 0 * 150⟩)
      , (⟨0, 0⟩, ⟨0 - Real.sin (-(Real.pi / 8)) * 150,
          0 - Real.cos (-(Real.pi / 8)) * 150⟩)
      , (⟨0, 0⟩, ⟨0 - Real.sin (-(Real.pi / 4)) * 150,
          0 - Real.cos (-(Real.pi / 4)) * 150⟩) ] ∧
    (∀ (α : Type) [LinearOrderedField α] (sinF cosF : α → α)
       (len spread x y angle : α),
       castRays sinF cosF 1 len spread x y angle =
         [(⟨x, y⟩, ⟨x - sinF angle * len, y - cosF angle * len⟩)]) := by
  refine ⟨?_, ?_, ?_⟩
  · intro α inst sinF cosF n len spread x y angle hn
    refine ⟨castRays_length _ _ _ _ _ _ _ _, ?_⟩
    intro i hi
    unfold castRays
    rw [getD_map_lt _ _ i seg0 0 (by simpa using hi)]
    rw [List.getD_eq_getElem _ _ (by simpa using hi), List.getElem_range]
    refine rayCongr sinF cosF x y len _ _ ?_
    unfold linearInterpolation
    ring
  · unfold castRays
    rw [show List.range 5 = [0, 1, 2, 3, 4] from rfl]
    simp only [List.map_cons, List.map_nil, List.cons.injEq, and_true]
    refine ⟨?_, ?_, ?_, ?_, ?_⟩ <;>
      refine rayCongr Real.sin Real.cos 0 0 150 _ _ ?_ <;>
      · norm_num [linearInterpolation]
        ring
  · intro α inst sinF cosF len spread x y angle
    unfold castRays
    rw [show List.range 1 = [0] from rfl]
    simp only [List.map_cons, List.map_nil, List.cons.injEq, and_true]
    refine rayCongr sinF cosF x y len _ _ ?_
    norm_num [linearInterpolation]
    ring

/-- Witness for C5: the leading hypothesis holds at the default configuration
and the general clause then yields the ray count. -/
theorem C5_castRays_fan_witness :
    1 ≤ (5 : Nat) ∧
    (castRays (fun t : ℚ => t) (fun t => t) 5 150 2 0 0 0).length = 5 :=
  ⟨by norm_num,
   (C5_castRays_fan.1 ℚ (fun t => t) (fun t => t) 5 150 2 0 0 0 (by norm_num)).1⟩

/-! ## Decomposition of the speed pipeline of `Car.#move`

Each little function below names one `if` of the source's speed update, so
that `Car.move`'s speed can be reasoned about compositionally; the
decomposition is definitionally equal to `Car.move` (`move_speed_eq`). -/

/-- `if (forward) speed += acceleration`. -/
def accelF {α : Type} [LinearOrderedField α] (b : Bool) (s a : α) : α :=
  if b then s + a else s

/-- `if (reverse) speed -= acceleration`. -/
def decelF {α : Type} [LinearOrderedField α] (b : Bool) (s a : α) : α :=
  if b then s - a else s

/-- `if (speed > maxSpeed) speed = maxSpeed`. -/
def clampHi {α : Type} [LinearOrderedField α] (s M : α) : α :=
  if M < s then M else s

/-- `if (speed < -maxSpeed/2) speed = -maxSpeed/2`. -/
def clampLo {α : Type} [LinearOrderedField α] (s M : α) : α :=
  if s < -(M / 2) then -(M / 2) else s

/-- `if (speed < 0) speed += friction`. -/
def frictionNeg {α : Type} [LinearOrderedField α] (s f : α) : α :=
  if s < 0 then s + f else s

/-- `if (speed > 0) speed -= friction`. -/
def frictionPos {α : Type} [LinearOrderedField α] (s f : α) : α :=
  if 0 < s then s - f else s

/-- `if (Math.abs(speed) < friction) speed = 0`. -/
def snapZero {α : Type} [LinearOrderedField α] (s f : α) : α :=
  if |s| < f then 0 else s

/-- The speed computed by `Car.move` is the composition of the seven
single-`if` steps, in source order. -/
theorem move_speed_eq {α : Type} [LinearOrderedField α] (sinF cosF : α → α)
    (c : Car α) (ctrl : Controls) :
    (Car.move sinF cosF c ctrl).speed =
      snapZero
        (frictionPos
          (frictionNeg
            (clampLo
              (clampHi (decelF ctrl.reverse (accelF ctrl.forward c.speed c.acceleration)
                  c.acceleration)
                c.maxSpeed)
              c.maxSpeed)
            c.friction)
          c.friction)
        c.friction := rfl

/-- Clamping to the speed window never increases the magnitude when the cap is
nonnegative. -/
theorem abs_clampSpeed_le {α : Type} [LinearOrderedField α] (s M : α)
    (hM : 0 ≤ M) : |clampLo (clampHi s M) M| ≤ |s| := by
  unfold clampHi clampLo
  split_ifs with h1 h2 h3 <;>
    rcases abs_cases s with ⟨hs, hs0⟩ | ⟨hs, hs0⟩ <;> rw [hs] <;>
      first
        | linarith [abs_nonneg s]
        | (refine abs_le.mpr ⟨?_, ?_⟩ <;> linarith)

/-- One friction-and-snap pass: the result is exactly zero, or its magnitude
has dropped by at least the friction step. -/
theorem frictionSnap_zero_or_drop {α : Type} [LinearOrderedField α] (t f : α)
    (hf : 0 < f) :
    snapZero (frictionPos (frictionNeg t f) f) f = 0 ∨
    |snapZero (frictionPos (frictionNeg t f) f) f| ≤ |t| - f := by
  unfold frictionNeg
  rcases lt_or_le t 0 with hneg | hpos
  · rw [if_pos hneg]
    unfold frictionPos
    rcases lt_or_le 0 (t + f) with h2 | h2
    · rw [if_pos h2]
      left
      unfold snapZero
      have hc : |t + f - f| < f := by
        have ht : t + f - f = t := by ring
        rw [ht, abs_of_neg hneg]
        linarith
      rw [if_pos hc]
    · rw [if_neg (not_lt.mpr h2)]
      unfold snapZero
      by_cases h3 : |t + f| < f
      · rw [if_pos h3]
        exact Or.inl rfl
      · rw [if_neg h3]
        right
        rw [abs_of_nonpos h2, abs_of_neg hneg]
        linarith
  · rw [if_neg (not_lt.mpr hpos)]
    unfold frictionPos
    rcases lt_or_le 0 t with h2 | h2
    · rw [if_pos h2]
      unfold snapZero
      by_cases h3 : |t - f| < f
      · rw [if_pos h3]
        exact Or.inl rfl
      · rw [if_neg h3]
        right
        have h4 : f ≤ |t - f| := not_lt.mp h3
        rcases abs_cases (t - f) with ⟨he, hsign⟩ | ⟨he, hsign⟩
        · rw [he] at h4 ⊢
          rw [abs_of_pos h2]
        · exfalso
          rw [he] at h4
          linarith
    · have ht0 : t = 0 := le_antisymm h2 hpos
      rw [if_neg (not_lt.mpr h2)]
      left
      unfold snapZero
      have hc : |t| < f := by
        rw [ht0, abs_zero]
        exact hf
      rw [if_pos hc]

/-- One coasting tick (all controls false): the speed snaps to zero or its
magnitude drops by at least the friction step. -/
theorem move_coast_step {α : Type} [LinearOrderedField α] (sinF cosF : α → α)
    (c : Car α) (hf : 0 < c.friction) (hM : 0 ≤ c.maxSpeed) :
    (Car.move sinF cosF c ctrlNone).speed = 0 ∨
    |(Car.move sinF cosF c ctrlNone).speed| ≤ |c.speed| - c.friction := by
  rw [move_speed_eq]
  have hd : decelF ctrlNone.reverse (accelF ctrlNone.forward c.speed c.acceleration)
      c.acceleration = c.speed := rfl
  rw [hd]
  rcases frictionSnap_zero_or_drop (clampLo (clampHi c.speed c.maxSpeed) c.maxSpeed)
      c.friction hf with h | h
  · exact Or.inl h
  · right
    have hcl := abs_clampSpeed_le c.speed c.maxSpeed hM
    calc |snapZero (frictionPos (frictionNeg (clampLo (clampHi c.speed c.maxSpeed)
            c.maxSpeed) c.friction) c.friction) c.friction|
        ≤ |clampLo (clampHi c.speed c.maxSpeed) c.maxSpeed| - c.friction := h
      _ ≤ |c.speed| - c.friction := by linarith

/-- Coasting from any speed of magnitude at most `k · friction` reaches
exactly zero within `k` ticks. -/
theorem coast_reaches_zero {α : Type} [LinearOrderedField α]
    (sinF cosF : α → α) :
    ∀ (k : Nat) (c : Car α), 0 < c.friction → 0 ≤ c.maxSpeed →
      |c.speed| ≤ (k : α) * c.friction →
      ((fun s => Car.move sinF cosF s ctrlNone)^[k] c).speed = 0 := by
  intro k
  induction k with
  | zero =>
    intro c hf hM hk
    simp only [Function.iterate_zero, id_eq]
    exact abs_eq_zero.mp (le_antisymm (by simpa using hk) (abs_nonneg _))
  | succ n ih =>
    intro c hf hM hk
    rw [Function.iterate_succ_apply]
    apply ih
    · rw [Car.move_friction]
      exact hf
    · rw [Car.move_maxSpeed]
      exact hM
    · rw [Car.move_friction]
      rcases move_coast_step sinF cosF c hf hM with h0 | hle
      · rw [h0, abs_zero]
        positivity
      · push_cast at hk
        calc |(Car.move sinF cosF c ctrlNone).speed|
              ≤ |c.speed| - c.friction := hle
          _ ≤ ((n : α) + 1) * c.friction - c.friction := by linarith
          _ = (n : α) * c.friction := by ring

/-- C7: in an all-controls-released regime with positive friction and a
nonnegative speed cap, the speed is exactly zero (not merely asymptotically
small) after any number of ticks at least `⌈|speed| / friction⌉`. -/
theorem C7_coasting_stops {α : Type} [LinearOrderedField α] [FloorSemiring α]
    (sinF cosF : α → α) (c : Car α) (hf : 0 < c.friction) (hM : 0 ≤ c.maxSpeed)
    (m : Nat) (hm : ⌈|c.speed| / c.friction⌉₊ ≤ m) :
    ((fun s => Car.move sinF cosF s ctrlNone)^[m] c).speed = 0 := by
  apply coast_reaches_zero sinF cosF m c hf hM
  have h1 : |c.speed| / c.friction ≤ (m : α) := by
    calc |c.speed| / c.friction
        ≤ (⌈|c.speed| / c.friction⌉₊ : α) := Nat.le_ceil _
      _ ≤ (m : α) := by exact_mod_cast hm
  calc |c.speed| = |c.speed| / c.friction * c.friction := by
        rw [div_mul_cancel₀ _ (ne_of_gt hf)]
    _ ≤ (m : α) * c.friction := mul_le_mul_of_nonneg_right h1 (le_of_lt hf)

/-- The coasting witness car: speed `1/10` with the constructor's friction
`1/20`, so the ceiling bound is two ticks. -/
def coastCar : Car ℚ := { Car.init trigQ 0 0 4 8 with speed := 1/10 }

/-- Witness for C7: the concrete coasting car stops in two ticks. -/
theorem C7_coasting_stops_witness :
    0 < coastCar.friction ∧ 0 ≤ coastCar.maxSpeed ∧
    ⌈|coastCar.speed| / coastCar.friction⌉₊ ≤ 2 ∧
    ((fun s => Car.move trigQ.sinF trigQ.cosF s ctrlNone)^[2] coastCar).speed
      = 0 := by
  have h1 : 0 < coastCar.friction := by norm_num [coastCar, Car.init]
  have h2 : 0 ≤ coastCar.maxSpeed := by norm_num [coastCar, Car.init]
  have h3 : ⌈|coastCar.speed| / coastCar.friction⌉₊ ≤ 2 := by
    rw [show coastCar.speed = 1/10 from rfl, show coastCar.friction = 1/20 from rfl]
    rw [show |(1/10 : ℚ)| = 1/10 from abs_of_pos (by norm_num)]
    rw [show (1/10 : ℚ) / (1/20) = 2 from by norm_num]
    exact Nat.ceil_le.mpr (by norm_num)
  exact ⟨h1, h2, h3, C7_coasting_stops trigQ.sinF trigQ.cosF coastCar h1 h2 2 h3⟩

/-- The two clamps land the speed inside `[-maxSpeed/2, maxSpeed]` whenever
the cap is nonnegative, whatever the incoming speed. -/
theorem clampSpeed_mem {α : Type} [LinearOrderedField α] (s M : α)
    (hM : 0 ≤ M) :
    -(M / 2) ≤ clampLo (clampHi s M) M ∧ clampLo (clampHi s M) M ≤ M := by
  unfold clampHi clampLo
  split_ifs with h1 h2 h3 <;> constructor <;> linarith

/-- Friction and the snap keep a speed inside `[-maxSpeed/2, maxSpeed]` when
the friction step is between `0` and `maxSpeed/2`. -/
theorem frictionSnap_mem {α : Type} [LinearOrderedField α] (t f M : α)
    (hf : 0 ≤ f) (hfM : f ≤ M / 2) (h1 : -(M / 2) ≤ t) (h2 : t ≤ M) :
    -(M / 2) ≤ snapZero (frictionPos (frictionNeg t f) f) f ∧
    snapZero (frictionPos (frictionNeg t f) f) f ≤ M := by
  unfold frictionNeg frictionPos snapZero
  split_ifs <;> constructor <;> linarith

/-- After any `Car.move`, the speed lies in `[-maxSpeed/2, maxSpeed]`,
whatever the controls, provided `0 ≤ friction ≤ maxSpeed/2`. -/
theorem move_speed_mem {α : Type} [LinearOrderedField α] (sinF cosF : α → α)
    (c : Car α) (ctrl : Controls) (hf : 0 ≤ c.friction)
    (hfM : c.friction ≤ c.maxSpeed / 2) :
    -(c.maxSpeed / 2) ≤ (Car.move sinF cosF c ctrl).speed ∧
    (Car.move sinF cosF c ctrl).speed ≤ c.maxSpeed := by
  rw [move_speed_eq]
  have hM : 0 ≤ c.maxSpeed := by linarith
  have hc := clampSpeed_mem
    (decelF ctrl.reverse (accelF ctrl.forward c.speed c.acceleration)
      c.acceleration) c.maxSpeed hM
  exact frictionSnap_mem _ _ _ hf hfM hc.1 hc.2

/-- The speed invariant: the constructor's caps together with the claimed
speed window. -/
def SpeedInv {α : Type} [LinearOrderedField α] (c : Car α) : Prop :=
  c.maxSpeed = 3 ∧ c.friction = 1/20 ∧
  -(c.maxSpeed / 2) ≤ c.speed ∧ c.speed ≤ c.maxSpeed

/-- One `Car.update` preserves the speed invariant. -/
theorem update_speedInv {α : Type} [LinearOrderedField α] (T : Trig α)
    (c : Car α) (ctrl : Controls) (roadBorders : List (Seg α))
    (h : SpeedInv c) : SpeedInv (Car.update T c ctrl roadBorders) := by
  obtain ⟨hM, hf, hlo, hhi⟩ := h
  unfold Car.update
  by_cases hd : c.damaged = true
  · rw [if_pos hd]
    exact ⟨hM, hf, hlo, hhi⟩
  · rw [if_neg hd]
    have hmv := move_speed_mem T.sinF T.cosF c ctrl
      (by rw [hf]; norm_num) (by rw [hf, hM]; norm_num)
    exact ⟨hM, hf, hmv.1, hmv.2⟩

/-- Folding `Car.update` over any input trace preserves the speed invariant. -/
theorem foldl_update_speedInv {α : Type} [LinearOrderedField α] (T : Trig α)
    (inputs : List (Controls × List (Seg α))) :
    ∀ c : Car α, SpeedInv c →
      SpeedInv (inputs.foldl (fun c p => Car.update T c p.1 p.2) c) := by
  induction inputs with
  | nil =>
    intro c h
    exact h
  | cons p ps ih =>
    intro c h
    exact ih _ (update_speedInv T c p.1 p.2 h)

/-- C8: from the constructed state (speed 0) and along any sequence of
control inputs and borders, the speed always lies in
`[-maxSpeed/2, +maxSpeed] = [-3/2, 3]`. -/
theorem C8_speed_window :
    ∀ (α : Type) [LinearOrderedField α] (T : Trig α) (x y w h : α)
      (inputs : List (Controls × List (Seg α))),
      (inputs.foldl (fun c p => Car.update T c p.1 p.2)
          (Car.init T x y w h)).maxSpeed = 3 ∧
      -(3/2 : α) ≤ (inputs.foldl (fun c p => Car.update T c p.1 p.2)
          (Car.init T x y w h)).speed ∧
      (inputs.foldl (fun c p => Car.update T c p.1 p.2)
          (Car.init T x y w h)).speed ≤ 3 := by
  intro α inst T x y w h inputs
  have h0 : SpeedInv (Car.init T x y w h) := by
    refine ⟨rfl, rfl, ?_, ?_⟩ <;> norm_num [Car.init]
  obtain ⟨hM, hf, hlo, hhi⟩ := foldl_update_speedInv T inputs (Car.init T x y w h) h0
  rw [hM] at hlo hhi
  refine ⟨hM, ?_, hhi⟩
  have h32 : -(3/2 : α) = -((3:α)/2) := by norm_num
  rw [h32]
  exact hlo
